import Mathlib

/-
Verification of the real-time connection/reconciliation subsystem of the
InsightBoard frontend.

Part 1 models the series reconciler: the metric_update handler in
src/frontend/src/pages/Dashboard.tsx, i.e. the functional updaters passed
to setMetrics and setMetricsHistory, and the snapshot seeding performed by
handleDashboardSelect.

Part 2 models the stream connection manager: the WebSocketManager class in
the websocket service module (connect, _doConnect with its onopen,
onmessage, onclose and onerror handlers, disconnect, onMessage).

JS numbers only ever flow through these functions unchanged (they are
copied, never computed with), so metric values are embedded as Int.
Timestamps (ISO strings) are embedded as String.
-/

-- ## Definitions

inductive MetricType
  | gauge
  | counter
  | histogram
deriving DecidableEq, Repr

/-- The Metric interface of the api service module. -/
structure Metric where
  id : Int
  name : String
  value : Int
  metric_type : MetricType
  dashboard_id : Int
  created_at : String
deriving DecidableEq, Repr

/-- MetricState = Metric and an optional previousValue, as in Dashboard.tsx. -/
structure MetricState extends Metric where
  previousValue : Option Int := none
deriving DecidableEq, Repr

/-- The MetricDataPoint interface of MetricChart.tsx. -/
structure MetricDataPoint where
  timestamp : String
  value : Int
deriving DecidableEq, Repr

/-- Array.prototype.findIndex with a running index, as used on prevMetrics. -/
def findIndexAux (p : α → Bool) : List α → Nat → Option Nat
  | [], _ => none
  | x :: xs, i => if p x then some i else findIndexAux p xs (i + 1)

/-- JS findIndex: index of the first element satisfying p, if any. -/
def findIndex (p : α → Bool) (l : List α) : Option Nat :=
  findIndexAux p l 0

/-- The setMetrics updater of the metric_update handler: find the existing
metric by name; when found, replace that entry by the update carrying the
old value as previousValue; otherwise append the update as a new metric. -/
def applyUpdateMetrics (prevMetrics : List MetricState) (u : Metric) :
    List MetricState :=
  match findIndex (fun m => m.name == u.name) prevMetrics with
  | some i =>
      prevMetrics.set i
        { toMetric := u,
          previousValue := (prevMetrics.get? i).map (fun m => m.value) }
  | none => prevMetrics ++ [{ toMetric := u, previousValue := none }]

/-- Array.prototype.slice with argument -n: the suffix of the last
min n (length) elements. -/
def sliceLast (n : Nat) (l : List α) : List α :=
  l.drop (l.length - n)

/-- The point appended to the history of u.name by the metric_update
handler. -/
def toPoint (u : Metric) : MetricDataPoint :=
  { timestamp := u.created_at, value := u.value }

/-- The setMetricsHistory updater of the metric_update handler: spread the
record, appending the new point to the history of u.name and keeping the
last 100 entries. The Record of JS is embedded as a total function from
names to histories, empty histories standing for absent keys. -/
def updateHistory (prevHistory : String → List MetricDataPoint) (u : Metric) :
    String → List MetricDataPoint :=
  fun n =>
    if n = u.name then sliceLast 100 (prevHistory u.name ++ [toPoint u])
    else prevHistory n

/-- Folding a stream of metric_update events into the history record. -/
def applyUpdates (h : String → List MetricDataPoint) (us : List Metric) :
    String → List MetricDataPoint :=
  us.foldl updateHistory h

/-- handleDashboardSelect: initialHistory starts with a single-point history
per fetched metric (a later metric of the same name overwrites, as JS
object assignment does). -/
def seedHistory (initialMetrics : List Metric) :
    String → List MetricDataPoint :=
  initialMetrics.foldl
    (fun h m => fun n => if n = m.name then [toPoint m] else h n)
    (fun _ => [])

/-- handleDashboardSelect: setMetrics(initialMetrics); the fetched metrics
carry no previousValue field. -/
def seedMetrics (initialMetrics : List Metric) : List MetricState :=
  initialMetrics.map (fun m => { toMetric := m, previousValue := none })

/-- JS Array.prototype.find on the metrics list, by name. -/
def findMetric (l : List MetricState) (n : String) : Option MetricState :=
  l.find? (fun m => m.name == n)

/-- A recursive characterisation of the find-index-and-set update. -/
def applyRec : List MetricState → Metric → List MetricState
  | [], u => [{ toMetric := u, previousValue := none }]
  | m :: rest, u =>
      if m.name == u.name then
        { toMetric := u, previousValue := some m.value } :: rest
      else m :: applyRec rest u

def cpuMetric : Metric :=
  { id := 1, name := "cpu_usage", value := 75, metric_type := .gauge,
    dashboard_id := 1, created_at := "2025-10-22T00:00:00Z" }

def cpuUpdate : Metric :=
  { cpuMetric with value := 80, created_at := "2025-10-22T00:00:05Z" }

def memUpdate : Metric :=
  { id := 2, name := "mem", value := 42, metric_type := .gauge,
    dashboard_id := 1, created_at := "2025-10-22T00:00:07Z" }

/-- The ConnectionState union of the websocket service module. The
specification names the phases Connecting / Connected / Disconnected /
Failed; the source uses connecting / connected / disconnected / error. -/
inductive ConnectionState
  | connecting
  | connected
  | disconnected
  | error
deriving DecidableEq, Repr

/-- The readyState of a browser WebSocket object. -/
inductive ReadyState
  | connecting
  | opened
  | closing
  | closed
deriving DecidableEq, Repr

/-- One underlying transport handle: a WebSocket object created by
_doConnect, identified by creation order. Handles are never destroyed by
the manager, only closed; all of them keep the handlers _doConnect
installed, which reference the single manager instance. -/
structure WSHandle where
  id : Nat
  url : String
  readyState : ReadyState
deriving DecidableEq, Repr

/-- The WebSocketMessage interface: a type tag plus a data payload. The
manager never inspects data, so it is embedded as an integer token. -/
structure WebSocketMessage where
  type : String
  data : Int
deriving DecidableEq, Repr

def MAX_RETRIES : Nat := 5

def RETRY_INTERVAL_MS : Nat := 1000

/-- The fields of the WebSocketManager instance, together with the
observable environment of the embedding: every transport handle ever
created, the queue of pending setTimeout reconnect callbacks (their
delays), the log of every delay ever scheduled, and the log of messages
handed to the registered consumer callback, tagged with the id of the
handle they arrived on. -/
structure ManagerState where
  ws : Option Nat
  url : Option String
  token : Option String
  retries : Nat
  connectionState : ConnectionState
  hasCallback : Bool
  handles : List WSHandle
  pendingTimers : List Nat
  scheduledLog : List Nat
  delivered : List (Nat × WebSocketMessage)
  nextId : Nat
deriving DecidableEq, Repr

/-- A fresh manager instance. -/
def initManager : ManagerState :=
  { ws := none, url := none, token := none, retries := 0,
    connectionState := .disconnected, hasCallback := false, handles := [],
    pendingTimers := [], scheduledLog := [], delivered := [], nextId := 0 }

def getHandle (s : ManagerState) (i : Nat) : Option WSHandle :=
  s.handles.find? (fun h => h.id == i)

def setHandleState (s : ManagerState) (i : Nat) (r : ReadyState) :
    ManagerState :=
  { s with
    handles := s.handles.map
      (fun h => if h.id == i then { h with readyState := r } else h) }

/-- The guard of connect: this.ws && this.ws.readyState === WebSocket.OPEN. -/
def currentOpen (s : ManagerState) : Bool :=
  match s.ws with
  | none => false
  | some i =>
      match getHandle s i with
      | some h => h.readyState == .opened
      | none => false

/-- JS falsiness of the stored url / token: absent or the empty string. -/
def strMissing (o : Option String) : Bool :=
  o.getD "" == ""

/-- Model of _doConnect: bail out to the error state when url or token is unset,
otherwise create a new WebSocket on url?token=... . The new handle starts
in the CONNECTING readyState and becomes the value of this.ws; the
previous handle, if any, is left untouched. -/
def doConnect (s : ManagerState) : ManagerState :=
  if strMissing s.url || strMissing s.token then
    { s with connectionState := .error }
  else
    { s with
      handles := s.handles
        ++ [{ id := s.nextId,
              url := s.url.getD "" ++ "?token=" ++ s.token.getD "",
              readyState := .connecting }],
      ws := some s.nextId,
      nextId := s.nextId + 1 }

/-- The dashboard stream endpoint for a resource id. -/
def wsUrl (dashboardId : Nat) : String :=
  "ws://localhost:8000/api/v1/ws/dashboard/" ++ toString dashboardId

/-- connect(dashboardId, token): a no-op when the current handle is OPEN;
otherwise record the new scope, reset the retry counter, enter connecting
and run _doConnect. -/
def connect (dashboardId : Nat) (token : String) (s : ManagerState) :
    ManagerState :=
  if currentOpen s then s
  else
    doConnect
      { s with
        url := some (wsUrl dashboardId),
        token := some token,
        retries := 0,
        connectionState := .connecting }

/-- The body of ws.onopen. -/
def onopenLogic (s : ManagerState) : ManagerState :=
  { s with connectionState := .connected, retries := 0 }

/-- The open event of handle i: fires on a handle completing its handshake
and runs the onopen handler installed on it (which references the single
manager instance, whichever handle it was installed on). -/
def fireOpen (i : Nat) (s : ManagerState) : ManagerState :=
  match getHandle s i with
  | some h =>
      if h.readyState == .connecting then onopenLogic (setHandleState s i .opened)
      else s
  | none => s

/-- The body of ws.onmessage: parse the payload, and hand the message to
the registered callback when parsing succeeds; a parse failure is caught
and only logged. none embeds a payload on which JSON.parse throws. -/
def onmessageLogic (i : Nat) (d : Option WebSocketMessage)
    (s : ManagerState) : ManagerState :=
  match d with
  | some m => if s.hasCallback then { s with delivered := s.delivered ++ [(i, m)] } else s
  | none => s

/-- The message event of handle i: only an OPEN socket delivers messages. -/
def fireMessage (i : Nat) (d : Option WebSocketMessage) (s : ManagerState) :
    ManagerState :=
  match getHandle s i with
  | some h => if h.readyState == .opened then onmessageLogic i d s else s
  | none => s

/-- The body of ws.onclose: an abnormal code with retry budget remaining
increments the counter, schedules a delayed _doConnect with delay
2 ^ retries * RETRY_INTERVAL_MS and enters connecting; otherwise the
manager settles in disconnected. -/
def oncloseLogic (code : Nat) (s : ManagerState) : ManagerState :=
  if code ≠ 1000 ∧ s.retries < MAX_RETRIES then
    { s with
      retries := s.retries + 1,
      pendingTimers := s.pendingTimers ++ [2 ^ (s.retries + 1) * RETRY_INTERVAL_MS],
      scheduledLog := s.scheduledLog ++ [2 ^ (s.retries + 1) * RETRY_INTERVAL_MS],
      connectionState := .connecting }
  else { s with connectionState := .disconnected }

/-- The close event of handle i with the given closure code. -/
def fireClose (i : Nat) (code : Nat) (s : ManagerState) : ManagerState :=
  match getHandle s i with
  | some h =>
      if h.readyState != .closed then oncloseLogic code (setHandleState s i .closed)
      else s
  | none => s

/-- The body of ws.onerror: a transport error alone moves the manager to
the error state and schedules nothing. -/
def fireError (i : Nat) (s : ManagerState) : ManagerState :=
  match getHandle s i with
  | some _ => { s with connectionState := .error }
  | none => s

/-- A pending setTimeout(() => this._doConnect(), delay) callback firing;
callbacks run in scheduling order. -/
def timerFire (s : ManagerState) : ManagerState :=
  match s.pendingTimers with
  | [] => s
  | _ :: rest => doConnect { s with pendingTimers := rest }

/-- disconnect(): when a handle is held, set the retry counter to
MAX_RETRIES, close the handle with code 1000 and drop the reference; in
every case settle in disconnected. ws.close only acts on a socket that is
CONNECTING or OPEN. -/
def disconnect (s : ManagerState) : ManagerState :=
  match s.ws with
  | some i =>
      let s1 := { s with retries := MAX_RETRIES }
      let s2 :=
        match getHandle s1 i with
        | some h =>
            if h.readyState == ReadyState.connecting
                || h.readyState == ReadyState.opened then
              setHandleState s1 i .closing
            else s1
        | none => s1
      { s2 with ws := none, connectionState := .disconnected }
  | none => { s with connectionState := .disconnected }

/-- onMessage(callback): registers the single consumer callback slot. -/
def onMessage (s : ManagerState) : ManagerState :=
  { s with hasCallback := true }

def connState0 : ManagerState := fireOpen 0 (connect 1 "t" initManager)

def backoffState : ManagerState := fireClose 0 1006 connState0

def retryTrace (c : Nat) : ManagerState :=
  fireClose 5 c (timerFire (fireClose 4 c (timerFire (fireClose 3 c
    (timerFire (fireClose 2 c (timerFire (fireClose 1 c
      (timerFire (fireClose 0 c connState0))))))))))

def fifthClose : ManagerState :=
  fireClose 4 1006 (timerFire (fireClose 3 1006 (timerFire (fireClose 2 1006
    (timerFire (fireClose 1 1006 (timerFire (fireClose 0 1006 connState0))))))))

def wsMsg0 : WebSocketMessage := { type := "metric_update", data := 7 }

def raceState0 : ManagerState :=
  connect 2 "t" (onMessage (connect 1 "t" initManager))

def raceState1 : ManagerState := fireOpen 0 raceState0

def raceState2 : ManagerState := fireMessage 0 (some wsMsg0) raceState1

def raceState3 : ManagerState := fireOpen 1 raceState2

-- ## Theorems

theorem findIndexAux_shift (p : α → Bool) (l : List α) (k : Nat) :
    findIndexAux p l k = (findIndexAux p l 0).map (fun i => i + k) := by
  induction l generalizing k with
  | nil => simp [findIndexAux]
  | cons x xs ih =>
      by_cases h : p x
      · simp [findIndexAux, h]
      · rw [findIndexAux, findIndexAux, if_neg h, if_neg h, ih (k + 1), ih 1]
        cases findIndexAux p xs 0
        · simp
        · simp
          omega

theorem applyUpdateMetrics_eq_applyRec (prev : List MetricState) (u : Metric) :
    applyUpdateMetrics prev u = applyRec prev u := by
  induction prev with
  | nil => rfl
  | cons m rest ih =>
      by_cases h : m.name == u.name
      · simp only [applyUpdateMetrics, findIndex, findIndexAux, h, if_true,
          applyRec]
        rfl
      · have hs : findIndex (fun x => x.name == u.name) (m :: rest)
            = (findIndex (fun x => x.name == u.name) rest).map
                (fun i => i + 1) := by
          rw [findIndex, findIndexAux, if_neg h, findIndexAux_shift, findIndex]
        rw [applyRec, if_neg h, ← ih]
        rw [applyUpdateMetrics, applyUpdateMetrics, hs]
        cases hfi : findIndex (fun x => x.name == u.name) rest with
        | none => simp
        | some i => simp [List.set_cons_succ, List.get?_cons_succ]

theorem sliceLast_eq_rtake (n : Nat) (l : List α) :
    sliceLast n l = l.rtake n := rfl

theorem sliceLast_eq_reverse_take (n : Nat) (l : List α) :
    sliceLast n l = (l.reverse.take n).reverse := by
  rw [sliceLast_eq_rtake, List.rtake_eq_reverse_take_reverse]

theorem length_sliceLast (n : Nat) (l : List α) :
    (sliceLast n l).length ≤ n := by
  unfold sliceLast
  rw [List.length_drop]
  omega

theorem sliceLast_of_length_le (n : Nat) (l : List α) (h : l.length ≤ n) :
    sliceLast n l = l := by
  unfold sliceLast
  rw [Nat.sub_eq_zero_of_le h, List.drop_zero]

/-- Re-slicing after an append agrees with slicing the full arrival list:
the key FIFO-eviction lemma for the bounded history. -/
theorem sliceLast_append_single (n : Nat) (hn : 1 ≤ n) (l : List α) (x : α) :
    sliceLast n (sliceLast n l ++ [x]) = sliceLast n (l ++ [x]) := by
  rw [sliceLast_eq_reverse_take, sliceLast_eq_reverse_take,
    sliceLast_eq_reverse_take]
  simp only [List.reverse_append, List.reverse_cons, List.reverse_nil,
    List.nil_append, List.reverse_reverse, List.singleton_append]
  cases n with
  | zero => omega
  | succ m => simp [List.take_succ_cons, List.take_take]

theorem seedFold_length_le (ms : List Metric)
    (h0 : String → List MetricDataPoint)
    (hb : ∀ n, (h0 n).length ≤ 1) (s : String) :
    ((ms.foldl (fun h m => fun n => if n = m.name then [toPoint m] else h n)
        h0) s).length ≤ 1 := by
  induction ms generalizing h0 with
  | nil => exact hb s
  | cons m rest ih =>
      rw [List.foldl_cons]
      apply ih
      intro n
      by_cases hn : n = m.name
      · simp [hn]
      · simpa [hn] using hb n

theorem seedHistory_length_le (ms : List Metric) (s : String) :
    (seedHistory ms s).length ≤ 1 :=
  seedFold_length_le ms (fun _ => []) (fun _ => by simp) s

/-- The fold invariant of the bounded history: if the history of s is the
100-suffix of some arrival list pre, then after any further updates it is
the 100-suffix of pre extended by the points applied to s, in order. -/
theorem applyUpdates_history (s : String) (us : List Metric)
    (h : String → List MetricDataPoint) (pre : List MetricDataPoint)
    (hp : h s = sliceLast 100 pre) :
    applyUpdates h us s
      = sliceLast 100
          (pre ++ (us.filter (fun u => u.name == s)).map toPoint) := by
  induction us generalizing h pre with
  | nil => simpa [applyUpdates] using hp
  | cons u rest ih =>
      have hstep : applyUpdates h (u :: rest) = applyUpdates (updateHistory h u) rest := by
        simp [applyUpdates]
      rw [hstep]
      by_cases hc : u.name = s
      · have hinv : (updateHistory h u) s = sliceLast 100 (pre ++ [toPoint u]) := by
          rw [updateHistory]
          rw [if_pos hc.symm, hc, hp]
          exact sliceLast_append_single 100 (by omega) pre (toPoint u)
        rw [ih (updateHistory h u) (pre ++ [toPoint u]) hinv]
        simp [hc, List.append_assoc]
      · have hinv : (updateHistory h u) s = sliceLast 100 pre := by
          rw [updateHistory, if_neg (fun hh => hc hh.symm)]
          exact hp
        rw [ih (updateHistory h u) pre hinv]
        have : (u.name == s) = false := by simp [hc]
        simp [this]

/-- C1: for every sequence of applyUpdate calls on a single series (after
any seed), the history length never exceeds 100, and the retained points
are exactly the last (at most) 100 points of the arrival sequence, in
application order: oldest entries are evicted first. -/
theorem C1_history_bounded_fifo (ms us : List Metric) (s : String) :
    (applyUpdates (seedHistory ms) us s).length ≤ 100
    ∧ applyUpdates (seedHistory ms) us s
        = sliceLast 100
            (seedHistory ms s
              ++ (us.filter (fun u => u.name == s)).map toPoint) := by
  have h0 : seedHistory ms s = sliceLast 100 (seedHistory ms s) :=
    (sliceLast_of_length_le 100 _
      (le_trans (seedHistory_length_le ms s) (by omega))).symm
  have hmain := applyUpdates_history s us (seedHistory ms) (seedHistory ms s) h0
  constructor
  · rw [hmain]
    exact length_sliceLast 100 _
  · exact hmain

theorem findMetric_applyRec_found (prev : List MetricState) (u : Metric)
    (m : MetricState) (hf : findMetric prev u.name = some m) :
    findMetric (applyRec prev u) u.name
      = some { toMetric := u, previousValue := some m.value } := by
  induction prev with
  | nil => simp [findMetric] at hf
  | cons p rest ih =>
      by_cases h : p.name == u.name
      · rw [findMetric, List.find?] at hf
        rw [h] at hf
        simp only [Option.some.injEq] at hf
        subst hf
        rw [applyRec, if_pos h]
        simp [findMetric]
      · rw [findMetric, List.find?] at hf
        rw [Bool.of_not_eq_true h] at hf
        rw [applyRec, if_neg h, findMetric, List.find?,
          Bool.of_not_eq_true h]
        exact ih hf

theorem findMetric_applyRec_new (prev : List MetricState) (u : Metric)
    (hf : findMetric prev u.name = none) :
    findMetric (applyRec prev u) u.name
      = some { toMetric := u, previousValue := none } := by
  induction prev with
  | nil => simp [applyRec, findMetric]
  | cons p rest ih =>
      by_cases h : p.name == u.name
      · rw [findMetric, List.find?] at hf
        rw [h] at hf
        simp at hf
      · rw [findMetric, List.find?] at hf
        rw [Bool.of_not_eq_true h] at hf
        rw [applyRec, if_neg h, findMetric, List.find?,
          Bool.of_not_eq_true h]
        exact ih hf

/-- C4: after the n-th update to a series (n at least 2), previousValue
equals the currentValue that held after the previous update; after the
first observation of a series, whether seeded from the snapshot or created
by an update for an unseen name, previousValue is absent. -/
theorem C4_previousValue (prev : List MetricState) (u : Metric)
    (ms : List Metric) :
    (∀ m, findMetric prev u.name = some m →
        findMetric (applyUpdateMetrics prev u) u.name
          = some { toMetric := u, previousValue := some m.value })
    ∧ (findMetric prev u.name = none →
        findMetric (applyUpdateMetrics prev u) u.name
          = some { toMetric := u, previousValue := none })
    ∧ (∀ x ∈ seedMetrics ms, x.previousValue = none) := by
  refine ⟨?_, ?_, ?_⟩
  · intro m hf
    rw [applyUpdateMetrics_eq_applyRec]
    exact findMetric_applyRec_found prev u m hf
  · intro hf
    rw [applyUpdateMetrics_eq_applyRec]
    exact findMetric_applyRec_new prev u hf
  · intro x hx
    rw [seedMetrics] at hx
    obtain ⟨m, _, rfl⟩ := List.mem_map.mp hx
    rfl

theorem C4_previousValue_witness :
    findMetric (applyUpdateMetrics (seedMetrics [cpuMetric]) cpuUpdate)
        cpuUpdate.name
      = some { toMetric := cpuUpdate, previousValue := some 75 }
    ∧ findMetric (applyUpdateMetrics [] memUpdate) memUpdate.name
      = some { toMetric := memUpdate, previousValue := none } := by
  constructor
  · exact (C4_previousValue (seedMetrics [cpuMetric]) cpuUpdate []).1
      { toMetric := cpuMetric, previousValue := none } (by decide)
  · exact (C4_previousValue [] memUpdate []).2.1 (by decide)

theorem filter_applyRec_other (prev : List MetricState) (u : Metric) :
    (applyRec prev u).filter (fun m => !(m.name == u.name))
      = prev.filter (fun m => !(m.name == u.name)) := by
  induction prev with
  | nil => simp [applyRec, List.filter]
  | cons p rest ih =>
      by_cases h : p.name == u.name
      · rw [applyRec, if_pos h]
        rw [List.filter, List.filter]
        rw [h]
        simp
      · rw [applyRec, if_neg h]
        rw [List.filter, List.filter, Bool.of_not_eq_true h]
        simp only [Bool.not_false]
        rw [ih]

theorem applyRec_append_of_absent (prev : List MetricState) (u : Metric)
    (hf : findMetric prev u.name = none) :
    applyRec prev u = prev ++ [{ toMetric := u, previousValue := none }] := by
  induction prev with
  | nil => rfl
  | cons p rest ih =>
      by_cases h : p.name == u.name
      · rw [findMetric, List.find?] at hf
        rw [h] at hf
        simp at hf
      · rw [findMetric, List.find?] at hf
        rw [Bool.of_not_eq_true h] at hf
        rw [applyRec, if_neg h, ih hf, List.cons_append]

/-- C10: a metric_update for series s leaves every other series untouched:
entries with a different name keep value, previousValue and relative order,
histories of other names are unchanged, and an update for an unseen name
appends the new series at the end. -/
theorem C10_frame (prev : List MetricState) (u : Metric)
    (hist : String → List MetricDataPoint) :
    ((applyUpdateMetrics prev u).filter (fun m => !(m.name == u.name))
        = prev.filter (fun m => !(m.name == u.name)))
    ∧ (∀ n, n ≠ u.name → updateHistory hist u n = hist n)
    ∧ (findMetric prev u.name = none →
        applyUpdateMetrics prev u
          = prev ++ [{ toMetric := u, previousValue := none }]) := by
  refine ⟨?_, ?_, ?_⟩
  · rw [applyUpdateMetrics_eq_applyRec]
    exact filter_applyRec_other prev u
  · intro n hn
    rw [updateHistory]
    rw [if_neg hn]
  · intro hf
    rw [applyUpdateMetrics_eq_applyRec]
    exact applyRec_append_of_absent prev u hf

theorem C10_frame_witness :
    ((applyUpdateMetrics (seedMetrics [cpuMetric]) memUpdate).filter
        (fun m => !(m.name == memUpdate.name))
      = (seedMetrics [cpuMetric]).filter
          (fun m => !(m.name == memUpdate.name)))
    ∧ updateHistory (seedHistory [cpuMetric]) memUpdate "cpu_usage"
      = seedHistory [cpuMetric] "cpu_usage"
    ∧ applyUpdateMetrics (seedMetrics [cpuMetric]) memUpdate
      = seedMetrics [cpuMetric]
          ++ [{ toMetric := memUpdate, previousValue := none }] := by
  obtain ⟨h1, h2, h3⟩ :=
    C10_frame (seedMetrics [cpuMetric]) memUpdate (seedHistory [cpuMetric])
  exact ⟨h1, h2 "cpu_usage" (by decide), h3 (by decide)⟩

theorem wsUrl_ne_empty (d : Nat) : wsUrl d ≠ "" := by
  intro h
  have hlen := congrArg String.length h
  rw [wsUrl, String.length_append] at hlen
  have hpos : 0 < ("ws://localhost:8000/api/v1/ws/dashboard/" : String).length := by
    decide
  have h0 : ("" : String).length = 0 := by decide
  omega

theorem oncloseLogic_normal (s : ManagerState) :
    oncloseLogic 1000 s = { s with connectionState := ConnectionState.disconnected } := by
  rw [oncloseLogic, if_neg]
  intro hcon
  exact hcon.1 rfl

theorem oncloseLogic_retry (c : Nat) (s : ManagerState) (hc : c ≠ 1000)
    (hr : s.retries < MAX_RETRIES) :
    oncloseLogic c s
      = { s with
          retries := s.retries + 1,
          pendingTimers := s.pendingTimers ++ [2 ^ (s.retries + 1) * RETRY_INTERVAL_MS],
          scheduledLog := s.scheduledLog ++ [2 ^ (s.retries + 1) * RETRY_INTERVAL_MS],
          connectionState := ConnectionState.connecting } := by
  rw [oncloseLogic, if_pos ⟨hc, hr⟩]

theorem oncloseLogic_ne_1000 (c : Nat) (hc : c ≠ 1000) (s : ManagerState) :
    oncloseLogic c s = oncloseLogic 1006 s := by
  rw [oncloseLogic, oncloseLogic]
  by_cases hr : s.retries < MAX_RETRIES
  · rw [if_pos ⟨hc, hr⟩, if_pos ⟨by decide, hr⟩]
  · rw [if_neg (fun hcon => hr hcon.2), if_neg (fun hcon => hr hcon.2)]

theorem fireClose_ne_1000 (c : Nat) (hc : c ≠ 1000) (i : Nat) (s : ManagerState) :
    fireClose i c s = fireClose i 1006 s := by
  rw [fireClose, fireClose]
  cases getHandle s i with
  | none => rfl
  | some h =>
      by_cases hr : (h.readyState != ReadyState.closed) = true
      · simp only [hr, if_true]
        exact oncloseLogic_ne_1000 c hc _
      · have hcl : h.readyState = ReadyState.closed := by simpa using hr
        simp [hcl]

theorem fireClose_eq (i c : Nat) (s : ManagerState) (h : WSHandle)
    (hh : getHandle s i = some h) (hr : h.readyState ≠ ReadyState.closed) :
    fireClose i c s = oncloseLogic c (setHandleState s i ReadyState.closed) := by
  rw [fireClose, hh]
  simp [hr]

theorem connect_of_open (d : Nat) (t : String) (s : ManagerState)
    (hopen : currentOpen s = true) : connect d t s = s := by
  rw [connect, if_pos hopen]

theorem connect_not_open (d : Nat) (t : String) (s : ManagerState)
    (hopen : currentOpen s = false) (ht : t ≠ "") :
    connect d t s
      = { s with
          url := some (wsUrl d),
          token := some t,
          retries := 0,
          connectionState := ConnectionState.connecting,
          handles := s.handles
            ++ [{ id := s.nextId, url := wsUrl d ++ "?token=" ++ t,
                  readyState := ReadyState.connecting }],
          ws := some s.nextId,
          nextId := s.nextId + 1 } := by
  have hcond : ¬ ((strMissing (some (wsUrl d)) || strMissing (some t)) = true) := by
    simp [strMissing, wsUrl_ne_empty d, ht]
  rw [connect, if_neg (by simp [hopen]), doConnect, if_neg hcond]
  rfl

theorem connect_empty_token (d : Nat) (s : ManagerState)
    (hopen : currentOpen s = false) :
    connect d "" s
      = { s with
          url := some (wsUrl d),
          token := some "",
          retries := 0,
          connectionState := ConnectionState.error } := by
  have hcond : (strMissing (some (wsUrl d)) || strMissing (some "")) = true := by
    simp [strMissing]
  rw [connect, if_neg (by simp [hopen]), doConnect, if_pos hcond]

/-- C2, counterexample: after the fifth consecutive abnormal closure the
manager is still connecting, a fifth reconnect (delay 2 ^ 5 * base) is
pending, and five delays were scheduled, not four. -/
theorem C2_counterexample :
    fifthClose.connectionState = ConnectionState.connecting
    ∧ ¬ fifthClose.connectionState = ConnectionState.disconnected
    ∧ fifthClose.pendingTimers = [2 ^ 5 * RETRY_INTERVAL_MS]
    ∧ fifthClose.scheduledLog
        = [2 ^ 1 * RETRY_INTERVAL_MS, 2 ^ 2 * RETRY_INTERVAL_MS,
           2 ^ 3 * RETRY_INTERVAL_MS, 2 ^ 4 * RETRY_INTERVAL_MS,
           2 ^ 5 * RETRY_INTERVAL_MS] := by decide

/-- C2, amended: starting from a connected session with retry counter
zero, six consecutive closures with a code other than 1000 exhaust the
retry budget: the sixth closure leaves the manager disconnected with no
reconnect pending, and the five intervening delays follow
base * 2 ^ 1 .. base * 2 ^ 5. -/
theorem C2_amended_budget (c : Nat) (hc : c ≠ 1000) :
    (retryTrace c).connectionState = ConnectionState.disconnected
    ∧ (retryTrace c).pendingTimers = []
    ∧ (retryTrace c).scheduledLog
        = [2 ^ 1 * RETRY_INTERVAL_MS, 2 ^ 2 * RETRY_INTERVAL_MS,
           2 ^ 3 * RETRY_INTERVAL_MS, 2 ^ 4 * RETRY_INTERVAL_MS,
           2 ^ 5 * RETRY_INTERVAL_MS] := by
  rw [retryTrace]
  simp only [fireClose_ne_1000 c hc]
  decide

theorem C2_amended_budget_witness :
    (retryTrace 1006).connectionState = ConnectionState.disconnected :=
  (C2_amended_budget 1006 (by decide)).1

/-- C3, counterexample: with the scope-1 session open, connect(2, u) is a
pure no-op: no teardown of the prior session, no scope replacement. -/
theorem C3_counterexample :
    connect 2 "u" connState0 = connState0
    ∧ connState0.url = some (wsUrl 1)
    ∧ ¬ (connect 2 "u" connState0).url = some (wsUrl 2) := by decide

/-- C3, amended: connect(resourceId, credential) is a no-op whenever the
current transport handle is OPEN, regardless of scope; otherwise (with a
nonempty credential) it records the new scope, resets the retry counter to
zero, transitions to connecting and opens a new transport handle, without
tearing down any prior handle. -/
theorem C3_amended_connect (d : Nat) (t : String) (s : ManagerState) :
    (currentOpen s = true → connect d t s = s)
    ∧ (currentOpen s = false → t ≠ "" →
        (connect d t s).retries = 0
        ∧ (connect d t s).connectionState = ConnectionState.connecting
        ∧ (connect d t s).url = some (wsUrl d)
        ∧ (connect d t s).token = some t
        ∧ (connect d t s).ws = some s.nextId
        ∧ (connect d t s).handles
            = s.handles
              ++ [{ id := s.nextId, url := wsUrl d ++ "?token=" ++ t,
                    readyState := ReadyState.connecting }]) := by
  constructor
  · exact fun h => connect_of_open d t s h
  · intro hopen ht
    rw [connect_not_open d t s hopen ht]
    exact ⟨rfl, rfl, rfl, rfl, rfl, rfl⟩

theorem C3_amended_connect_witness :
    connect 2 "u" connState0 = connState0
    ∧ (connect 1 "t" initManager).connectionState
        = ConnectionState.connecting := by
  refine ⟨(C3_amended_connect 2 "u" connState0).1 (by decide), ?_⟩
  exact ((C3_amended_connect 1 "t" initManager).2 (by decide) (by decide)).2.1

/-- C5: a closure with code 1000 settles the manager in disconnected with
nothing scheduled, regardless of the prior retry count; any other code,
with retry budget remaining, takes the backoff path, scheduling the delay
2 ^ (retries + 1) * RETRY_INTERVAL_MS and entering connecting. -/
theorem C5_closure_code_dispatch (s : ManagerState) (i c : Nat)
    (h : WSHandle) (hh : getHandle s i = some h)
    (hr : h.readyState ≠ ReadyState.closed) :
    ((fireClose i 1000 s).connectionState = ConnectionState.disconnected
      ∧ (fireClose i 1000 s).pendingTimers = s.pendingTimers
      ∧ (fireClose i 1000 s).scheduledLog = s.scheduledLog)
    ∧ (c ≠ 1000 → s.retries < MAX_RETRIES →
        (fireClose i c s).connectionState = ConnectionState.connecting
        ∧ (fireClose i c s).pendingTimers
            = s.pendingTimers ++ [2 ^ (s.retries + 1) * RETRY_INTERVAL_MS]
        ∧ (fireClose i c s).scheduledLog
            = s.scheduledLog ++ [2 ^ (s.retries + 1) * RETRY_INTERVAL_MS]) := by
  constructor
  · rw [fireClose_eq i 1000 s h hh hr, oncloseLogic_normal]
    exact ⟨rfl, rfl, rfl⟩
  · intro hc hlt
    rw [fireClose_eq i c s h hh hr,
      oncloseLogic_retry c (setHandleState s i ReadyState.closed) hc hlt]
    exact ⟨rfl, rfl, rfl⟩

theorem C5_closure_code_dispatch_witness :
    (fireClose 0 1000 connState0).connectionState
        = ConnectionState.disconnected
    ∧ (fireClose 0 1006 connState0).connectionState
        = ConnectionState.connecting := by
  obtain ⟨h1, h2⟩ := C5_closure_code_dispatch connState0 0 1006
    { id := 0, url := "ws://localhost:8000/api/v1/ws/dashboard/1?token=t",
      readyState := ReadyState.opened }
    (by decide) (by decide)
  exact ⟨h1.1, (h2 (by decide) (by decide)).1⟩

/-- C6: the code contradicts the stated contract (and its own comment
that setting retries to MAX_RETRIES prevents reconnection). disconnect()
during a pending backoff window leaves the scheduled timer in place; when
it fires, _doConnect opens a fresh transport handle with no new connect()
call, and its open event drives the manager back to connected, resetting
the retry counter. -/
theorem C6_disconnect_timer_escapes :
    (disconnect backoffState).connectionState = ConnectionState.disconnected
    ∧ (disconnect backoffState).retries = MAX_RETRIES
    ∧ (disconnect backoffState).pendingTimers = [2 ^ 1 * RETRY_INTERVAL_MS]
    ∧ (timerFire (disconnect backoffState)).handles.length = 2
    ∧ (timerFire (disconnect backoffState)).ws = some 1
    ∧ (fireOpen 1 (timerFire (disconnect backoffState))).connectionState
        = ConnectionState.connected
    ∧ (fireOpen 1 (timerFire (disconnect backoffState))).retries = 0 := by
  decide

/-- C7, counterexample: two back-to-back connect calls for scopes 1 and 2
before the first open completes. The open completion of the scope-1
handle drives the manager to connected, a message on that superseded
handle is delivered to the consumer, and after both opens complete two
transport handles are open at once. -/
theorem C7_counterexample :
    raceState1.connectionState = ConnectionState.connected
    ∧ (getHandle raceState1 0).map (fun h => h.url)
        = some (wsUrl 1 ++ "?token=" ++ "t")
    ∧ raceState2.delivered = [(0, wsMsg0)]
    ∧ ¬ ((raceState3.handles.filter
          (fun h => h.readyState == ReadyState.opened)).length ≤ 1) := by
  decide

/-- C7, amended: when two connect calls for different scopes are issued
back-to-back before the first open completes, the handle field of the
manager references only the second handle and targets the new scope,
but the first handle is never closed: it still opens (also driving the
manager to connected), both handles end up open simultaneously, and
events arriving on the superseded first handle still reach the registered
consumer. -/
theorem C7_amended_race :
    raceState0.ws = some 1
    ∧ raceState0.url = some (wsUrl 2)
    ∧ (getHandle raceState0 0).map (fun h => h.readyState)
        = some ReadyState.connecting
    ∧ raceState1.connectionState = ConnectionState.connected
    ∧ raceState2.delivered = [(0, wsMsg0)]
    ∧ raceState3.handles.map (fun h => h.readyState)
        = [ReadyState.opened, ReadyState.opened] := by
  decide

theorem timerFire_error_stays (s : ManagerState)
    (hm : strMissing s.token = true)
    (hcs : s.connectionState = ConnectionState.error) :
    (timerFire s).connectionState = ConnectionState.error
    ∧ (timerFire s).handles = s.handles := by
  rw [timerFire]
  cases s.pendingTimers with
  | nil => exact ⟨hcs, rfl⟩
  | cons a rest =>
      dsimp only
      rw [doConnect,
        if_pos ((by simp [hm]) : (strMissing s.url || strMissing s.token) = true)]
      exact ⟨rfl, rfl⟩

/-- C8, counterexample: while the scope-1 handle is OPEN, a connect call
with a missing credential is short-circuited by the readyState no-op
guard: the manager stays connected with the old scope and never reaches
the error state, so the claim as stated fails at this input. -/
theorem C8_counterexample :
    connect 2 "" connState0 = connState0
    ∧ connState0.connectionState = ConnectionState.connected
    ∧ ¬ (connect 2 "" connState0).connectionState = ConnectionState.error
    ∧ (connect 2 "" connState0).url = some (wsUrl 1) := by decide

/-- C8, amended: a connect call made while the current transport handle
is OPEN is short-circuited by the no-op guard and leaves the state
unchanged, even with a missing credential; in every other state, a
connect call whose scope is missing the credential ends in the error
state: no transport handle is created, nothing is scheduled, a later
timer callback (if any was already pending) also opens nothing, and an
explicit connect with a nonempty credential recovers by entering
connecting and opening a transport. The missing-resource-id guard of
_doConnect behaves the same way. -/
theorem C8_missing_credential_fails (s : ManagerState) (d : Nat) :
    (currentOpen s = true → connect d "" s = s)
    ∧ (currentOpen s = false →
        ((connect d "" s).connectionState = ConnectionState.error
          ∧ (connect d "" s).pendingTimers = s.pendingTimers
          ∧ (connect d "" s).scheduledLog = s.scheduledLog
          ∧ (connect d "" s).handles = s.handles)
        ∧ ((timerFire (connect d "" s)).connectionState = ConnectionState.error
          ∧ (timerFire (connect d "" s)).handles = s.handles)
        ∧ (∀ s2 : ManagerState, strMissing s2.url = true →
            (doConnect s2).connectionState = ConnectionState.error
            ∧ (doConnect s2).handles = s2.handles)
        ∧ (∀ d2 t, t ≠ "" →
            (connect d2 t (connect d "" s)).connectionState
                = ConnectionState.connecting
            ∧ (connect d2 t (connect d "" s)).handles.length
                = s.handles.length + 1)) := by
  constructor
  · exact fun h => connect_of_open d "" s h
  · intro hopen
    have he := connect_empty_token d s hopen
    refine ⟨?_, ?_, ?_, ?_⟩
    · rw [he]
      exact ⟨rfl, rfl, rfl, rfl⟩
    · have := timerFire_error_stays (connect d "" s)
        (by rw [he]; rfl) (by rw [he])
      rw [he] at this
      rw [he]
      exact this
    · intro s2 hm
      rw [doConnect, if_pos ((by simp [hm]) : (strMissing s2.url || strMissing s2.token) = true)]
      exact ⟨rfl, rfl⟩
    · intro d2 t ht
      have hopen2 : currentOpen (connect d "" s) = false := by
        rw [he]
        exact hopen
      rw [connect_not_open d2 t (connect d "" s) hopen2 ht, he]
      exact ⟨rfl, by simp⟩

theorem C8_missing_credential_fails_witness :
    connect 1 "" connState0 = connState0
    ∧ (connect 1 "" initManager).connectionState = ConnectionState.error
    ∧ (timerFire (connect 1 "" initManager)).handles = initManager.handles
    ∧ (connect 1 "tok" (connect 1 "" initManager)).connectionState
        = ConnectionState.connecting := by
  obtain ⟨h1, h2, _, h4⟩ :=
    (C8_missing_credential_fails initManager 1).2 (by decide)
  exact ⟨(C8_missing_credential_fails connState0 1).1 (by decide),
    h1.1, h2.2, (h4 1 "tok" (by decide)).1⟩

/-- C9: an inbound message whose payload fails to parse is dropped
entirely: the consumer callback is not invoked, nothing is thrown, and
the manager state (connection state, reconciliation inputs, timers) is
unchanged. -/
theorem C9_malformed_payload_dropped (s : ManagerState) (i : Nat) :
    fireMessage i none s = s := by
  rw [fireMessage]
  cases getHandle s i with
  | none => rfl
  | some h =>
      dsimp only
      by_cases hr : (h.readyState == ReadyState.opened) = true
      · rw [if_pos hr]
        rfl
      · rw [if_neg hr]
